import Mathlib

/-! Cluster registry, reconciliation and toolchain objects: a verification development

Shallow embedding of `pkg/cluster/cache.go` (the in-memory cluster registry),
of the reconciliation pass that consults it, and of
`pkg/client/toolchain_object.go` (toolchain objects and their sorting).

Modelling conventions
* A Go `map[string]*FedCluster` is an association list with pairwise distinct
  keys (`AList`).  `len(m)` is the length of its entry list.
* A non-nil `*FedCluster` is an address (`FedClusterPtr`), and a `Heap` gives
  the struct at every address; a pointer that may be nil is an
  `Option FedClusterPtr`.  The map stores the pointers it is given, not copies:
  a struct that its owner changes afterwards is seen changed through the
  registry.
* `sync.RWMutex` is not modelled: every method body is one atomic step of a
  sequential state machine.
* Go `error` values are compared by message; `Option String` is an error value
  with `none` for `nil`.
-/

namespace Toolchain

namespace cluster

/-- `client.Client`: an interface value, identified by an opaque handle. -/
abbrev Client := Nat

/-- `v1beta1.KubeFedClusterStatus`: an external record, kept opaque. -/
abbrev KubeFedClusterStatus := Nat

/-- `type Type string` (cache.go:74). -/
abbrev «Type» := String

/-- `Member Type = "member"` (cache.go:77). -/
def Member : «Type» := "member"

/-- `Host Type = "host"` (cache.go:78). -/
def Host : «Type» := "host"

/-- `type FedCluster struct` (cache.go:17-33). -/
structure FedCluster where
  Client : Client
  Name : String
  «Type» : «Type»
  OperatorNamespace : String
  ClusterStatus : Option KubeFedClusterStatus
  OwnerClusterName : String
  deriving DecidableEq, Repr

/-- A non-nil `*FedCluster`: the address of a struct. -/
abbrev FedClusterPtr := Nat

/-- The structs that `*FedCluster` pointers point to.  A non-nil pointer of Go
always points to a struct, so every address holds one.  The structs belong to
the callers of the registry, which may write to them. -/
abbrev Heap := FedClusterPtr → FedCluster

/-- An assignment through a pointer, such as `tc.Client = ...` in
`setupCachedClusters` of the controller test: the struct at `p` becomes `v`. -/
def Heap.store (heap : Heap) (p : FedClusterPtr) (v : FedCluster) : Heap :=
  fun q => if q = p then v else heap q

/-- `type kubeFedClusterClients struct` (cache.go:11-14), without the lock.
The map holds pointers.  It is never the nil map: the one value of this type,
`clusterCache`, is built with an empty map. -/
structure kubeFedClusterClients where
  clusters : AList (fun _ : String => FedClusterPtr)

/-- `var clusterCache = kubeFedClusterClients{clusters: map[string]*FedCluster{}}`
(cache.go:9): the initial value of the process-wide registry. -/
def clusterCache : kubeFedClusterClients := ⟨∅⟩

/-- `len(c.clusters)`. -/
def kubeFedClusterClients.len (c : kubeFedClusterClients) : Nat :=
  c.clusters.entries.length

/-- `addFedCluster` (cache.go:35-39): `c.clusters[cluster.Name] = cluster`.
The key is the Name that the struct has at the time of the call, and the value
is the pointer.  Reading `cluster.Name` through a nil pointer panics: `none`. -/
def kubeFedClusterClients.addFedCluster (c : kubeFedClusterClients) (heap : Heap)
    (cluster : Option FedClusterPtr) : Option kubeFedClusterClients :=
  match cluster with
  | none => none
  | some p => some ⟨c.clusters.insert (heap p).Name p⟩

/-- `deleteFedCluster` (cache.go:41-45): `delete(c.clusters, name)`. -/
def kubeFedClusterClients.deleteFedCluster (c : kubeFedClusterClients)
    (name : String) : kubeFedClusterClients :=
  ⟨c.clusters.erase name⟩

/-- `getFedCluster` (cache.go:47-52): `cluster, ok := c.clusters[name]`. -/
def kubeFedClusterClients.getFedCluster (c : kubeFedClusterClients)
    (name : String) : Option FedClusterPtr × Bool :=
  match c.clusters.lookup name with
  | some p => (some p, true)
  | none => (none, false)

/-- The order in which one `range` statement visits a map.  The Go runtime
starts at a position of its own choosing and wraps around; `start` is that
choice, so every entry of a non-empty map is visited first for some `start`. -/
def rangeOrder (c : kubeFedClusterClients) (start : Nat) :
    List (Sigma fun _ : String => FedClusterPtr) :=
  c.clusters.entries.rotate start

/-- `getFirstFedCluster` (cache.go:54-61): return at the first iteration of
`for _, cluster := range c.clusters`, or `nil, false` when the loop body never
runs. -/
def kubeFedClusterClients.getFirstFedCluster (c : kubeFedClusterClients)
    (start : Nat) : Option FedClusterPtr × Bool :=
  match rangeOrder c start with
  | ⟨_, cluster⟩ :: _ => (some cluster, true)
  | [] => (none, false)

/-- `GetFedCluster` (cache.go:64-66), as a step on the process-wide registry:
the result and the registry afterwards. -/
def GetFedCluster (name : String) (cache : kubeFedClusterClients) :
    (Option FedClusterPtr × Bool) × kubeFedClusterClients :=
  (cache.getFedCluster name, cache)

/-- `GetFirstFedCluster` (cache.go:69-71), as a step on the process-wide
registry: the result and the registry afterwards. -/
def GetFirstFedCluster (start : Nat) (cache : kubeFedClusterClients) :
    (Option FedClusterPtr × Bool) × kubeFedClusterClients :=
  (cache.getFirstFedCluster start, cache)

/-- One step of a program that uses the registry: `addFedCluster` with a
pointer, `deleteFedCluster` with a name, or an assignment by the caller to the
struct behind a pointer it holds. -/
inductive Op where
  | AddOrUpdate (cluster : FedClusterPtr)
  | Delete (name : String)
  | Write (p : FedClusterPtr) (v : FedCluster)
  deriving DecidableEq, Repr

/-- The heap and the registry after one step; `none` when the call panics. -/
def kubeFedClusterClients.apply (heap : Heap) (c : kubeFedClusterClients) :
    Op → Option (Heap × kubeFedClusterClients)
  | .AddOrUpdate p => (c.addFedCluster heap (some p)).map fun c' => (heap, c')
  | .Delete n => some (heap, c.deleteFedCluster n)
  | .Write p v => some (heap.store p v, c)

/-- The heap and the registry after a sequence of steps, the earliest first. -/
def kubeFedClusterClients.run (heap : Heap) (c : kubeFedClusterClients) :
    List Op → Option (Heap × kubeFedClusterClients)
  | [] => some (heap, c)
  | op :: ops =>
    match c.apply heap op with
    | some (heap', c') => c'.run heap' ops
    | none => none

/-- Whether the registry holds the pointer `p` under some name. -/
def kubeFedClusterClients.holds (c : kubeFedClusterClients) (p : FedClusterPtr) : Bool :=
  c.clusters.entries.any fun x => x.2 == p

/-- Whether a step leaves the Name of every struct that the registry points to
as it is: an assignment to a struct that the registry holds keeps its Name. -/
def Op.keepsNames (heap : Heap) (c : kubeFedClusterClients) : Op → Bool
  | .Write p v => !c.holds p || v.Name == (heap p).Name
  | _ => true

/-- Whether every step of a sequence keeps the names, each step judged in the
state it is taken in. -/
def kubeFedClusterClients.namesKept (heap : Heap) (c : kubeFedClusterClients) :
    List Op → Bool
  | [] => true
  | op :: ops =>
    op.keepsNames heap c &&
      match c.apply heap op with
      | some (heap', c') => c'.namesKept heap' ops
      | none => true

end cluster

namespace toolchaincluster

open cluster

/-- Modelled from the spec: the status of a Condition, one of True, False and
Unknown (spec section 3).  The type is declared outside the given sources. -/
inductive ConditionStatus where
  | ConditionTrue
  | ConditionFalse
  | ConditionUnknown
  deriving DecidableEq, Repr

/-- Modelled from the spec: the reason of a Condition.  Section 3 tells the
three outcomes apart by status and reason: Ready, NotReady (the probe ran and
failed) and Offline (the connection could not be found). -/
inductive Reason where
  | ClusterReady
  | ClusterNotReady
  | ClusterNotInCache
  deriving DecidableEq, Repr

/-- Modelled from the spec: the Condition record of section 3,
`{type, status, reason, message, lastTransitionTime}`.  The timestamp is a
reading of the clock and is left out. -/
structure Condition where
  type : String
  status : ConditionStatus
  reason : Reason
  message : String
  deriving DecidableEq, Repr

/-- Modelled from the spec: the single condition type that all three outcomes
are written under ("a single Ready-type condition"). -/
def ConditionReady : String := "Ready"

/-- Modelled from the spec: the Ready outcome, status True (section 3). -/
def Condition.isReady (c : Condition) : Bool :=
  c.type == ConditionReady && c.status == .ConditionTrue

/-- Modelled from the spec: the NotReady outcome, status False after a probe
that ran and failed (section 3). -/
def Condition.isNotReady (c : Condition) : Bool :=
  c.type == ConditionReady && c.status == .ConditionFalse && c.reason == .ClusterNotReady

/-- Modelled from the spec: the Offline outcome, status False with the reason
that the connection could not be found (section 3). -/
def Condition.isOffline (c : Condition) : Bool :=
  c.type == ConditionReady && c.status == .ConditionFalse && c.reason == .ClusterNotInCache

/-- Modelled from the spec: the TrackedClusterResource of sections 3 and 6,
declared outside the given sources. -/
structure TrackedClusterResource where
  Name : String
  Namespace : String
  apiEndpoint : String
  secretRef : String
  conditions : List Condition
  deriving DecidableEq, Repr

/-- Modelled from the spec: the namespaced name a reconciliation is triggered
with (section 6, "Input: namespaced name of the triggering resource"). -/
structure NamespacedName where
  Namespace : String
  Name : String
  deriving DecidableEq, Repr

/-- Modelled from the spec: the outcome of reading the tracked resource
(section 4.4 step 1): the resource, not-found, or any other error. -/
inductive FetchOutcome where
  | found (tc : TrackedClusterResource)
  | notFound
  | failed (err : String)
  deriving DecidableEq, Repr

/-- Modelled from the spec: the externally supplied resource client of section
2, which is outside the given sources.  It holds the stored resources, and a
read or a status write can be made to fail with a given error, as the tests do
with `MockGet` and `MockStatusUpdate`. -/
structure ResourceStore where
  resources : List TrackedClusterResource
  fetchFailure : Option String
  writeFailure : Option String
  deriving DecidableEq, Repr

/-- Modelled from the spec: whether a stored resource is the one a namespaced
name refers to. -/
def TrackedClusterResource.hasKey (tc : TrackedClusterResource) (key : NamespacedName) : Bool :=
  tc.Namespace == key.Namespace && tc.Name == key.Name

/-- Modelled from the spec: section 4.4 step 1, "read the
TrackedClusterResource by name". -/
def ResourceStore.fetch (s : ResourceStore) (key : NamespacedName) : FetchOutcome :=
  match s.fetchFailure with
  | some x => .failed x
  | none =>
    match s.resources.find? (fun tc => tc.hasKey key) with
    | some tc => .found tc
    | none => .notFound

/-- Modelled from the spec: section 3, `status.conditions` is an "ordered set
of Condition values, keyed by condition type (one entry per type)": writing a
condition replaces the entry of its type, or appends it when there is none. -/
def setCondition : List Condition → Condition → List Condition
  | [], c => [c]
  | d :: ds, c => if d.type = c.type then c :: ds else d :: setCondition ds c

/-- Modelled from the spec: section 4.4 step 5 and section 5, the status write
is "a single atomic remote operation": it fails with the store's write error
and changes nothing, or it replaces the status of the stored resource. -/
def ResourceStore.writeStatus (s : ResourceStore) (tc : TrackedClusterResource) :
    ResourceStore × Option String :=
  match s.writeFailure with
  | some w => (s, some w)
  | none =>
    ({ s with resources := s.resources.map fun r =>
        if r.hasKey ⟨tc.Namespace, tc.Name⟩ then { r with conditions := tc.conditions } else r },
      none)

/-- Modelled from the spec: the input of the ConditionBuilder of section 4.3,
"the outcome of registry lookup and probe". -/
inductive Outcome where
  | miss (name : String)
  | probed (healthy : Bool) (err : Option String)
  deriving DecidableEq, Repr

/-- Modelled from the spec: section 4.3, the text of the Offline condition and
of the error of section 4.4 step 2, `"cluster <name> not found in cache"`. -/
def notFoundInCache (name : String) : String :=
  "cluster " ++ name ++ " not found in cache"

/-- Modelled from the spec: the ConditionBuilder of section 4.3.  A lookup miss
gives the Offline condition with the message `"cluster <name> not found in
cache"`; a probe that reports healthy gives Ready; a probe that reports
unhealthy, with or without an error, gives NotReady.  The spec names no message
for Ready and NotReady: it is left empty here. -/
def ConditionBuilder : Outcome → Condition
  | .miss name => ⟨ConditionReady, .ConditionFalse, .ClusterNotInCache, notFoundInCache name⟩
  | .probed true _ => ⟨ConditionReady, .ConditionTrue, .ClusterReady, ""⟩
  | .probed false _ => ⟨ConditionReady, .ConditionFalse, .ClusterNotReady, ""⟩

/-- Modelled from the spec: the output of section 6,
`{ shouldRequeue: bool, requeueAfter: duration }`, with the field names the
tests use; a duration is a number of nanoseconds. -/
structure Result where
  Requeue : Bool := false
  RequeueAfter : Nat := 0
  deriving DecidableEq, Repr

/-- Modelled from the spec: the Reconciler of section 2 with its one tunable,
the recheck interval (section 6), and the injected HealthProbe of section 4.2,
`probe(context, connection) -> (healthy, err)`. -/
structure Reconciler where
  RequeAfter : Nat
  checkHealth : Client → Bool × Option String

/-- Modelled from the spec: section 4.4 step 5, the text of the error returned
when the status write fails after the probe. -/
def failedToUpdate (name : String) (w : String) : String :=
  "failed to update the status of cluster - " ++ name ++ ": " ++ w

/-- Modelled from the spec: the Reconciler state machine of section 4.4, whose
source is not among the given files (only its test is).  The result is the
returned `(Result, error)` and the resource store afterwards; the registry is
only read, through `GetFedCluster`, and the entry it returns through `heap`.
1. FetchResource: not found ends with no requeue and no error; any other error
   ends with no requeue and that error.
2. LookupRegistry: on a miss the Offline condition is built and its write is
   attempted, a failure of that write is ignored, and the pass ends with no
   requeue and the error `"cluster <name> not found in cache"`.
3. Probe, 4. BuildCondition, 5. PersistStatus: on success the pass ends with
   requeue-after = the configured interval; on failure with no requeue and
   `"failed to update the status of cluster - <name>: <persist error>"`. -/
def Reconciler.Reconcile (r : Reconciler) (req : NamespacedName)
    (cache : kubeFedClusterClients) (heap : Heap) (store : ResourceStore) :
    (Result × Option String) × ResourceStore :=
  match store.fetch req with
  | .notFound => (({}, none), store)
  | .failed x => (({}, some x), store)
  | .found tc =>
    match (GetFedCluster tc.Name cache).1 with
    | (some entry, true) =>
      let (healthy, err) := r.checkHealth (heap entry).Client
      let cond := ConditionBuilder (.probed healthy err)
      match store.writeStatus { tc with conditions := setCondition tc.conditions cond } with
      | (store', none) => (({ RequeueAfter := r.RequeAfter }, none), store')
      | (store', some w) => (({}, some (failedToUpdate tc.Name w)), store')
    | _ =>
      let cond := ConditionBuilder (.miss tc.Name)
      let written := store.writeStatus { tc with conditions := setCondition tc.conditions cond }
      (({}, some (notFoundInCache tc.Name)), written.1)

/-- Modelled from the spec: the conditions a later read of the resource
returns, as the tests read them back in `assertClusterStatus`; `none` when
the read does not return the resource. -/
def persistedConditions (store : ResourceStore) (key : NamespacedName) :
    Option (List Condition) :=
  match store.fetch key with
  | .found tc => some tc.conditions
  | _ => none

end toolchaincluster

/-! ## Toolchain objects (`pkg/client/toolchain_object.go`)

A Go `string` is a Lean `String`.  Go compares strings byte by byte; on UTF-8
text that is the order of the code points, which is the order of `String`.
A non-nil interface value is modelled by the record of what its methods
return; a constructor that returns `(value, error)` with exactly one of them
nil is an `Except`. -/

namespace client

/-- `schema.GroupVersionKind`. -/
structure GroupVersionKind where
  Group : String
  Version : String
  Kind : String
  deriving DecidableEq, Repr

/-- A non-nil `client.Object`: what `GetNamespace()`, `GetName()` and
`GetObjectKind().GroupVersionKind()` return, and the rest of the object, kept
opaque. -/
structure Object where
  Namespace : String
  Name : String
  GroupVersionKind : GroupVersionKind
  content : Nat
  deriving DecidableEq, Repr

/-- `type toolchainObjectImpl struct` (toolchain_object.go:30-33). -/
structure toolchainObjectImpl where
  Object : Object
  gvk : GroupVersionKind
  deriving DecidableEq, Repr

/-- `NewToolchainObject` (toolchain_object.go:36-45); `none` is the nil
object. -/
def NewToolchainObject (ob : Option Object) : Except String toolchainObjectImpl :=
  match ob with
  | none =>
    .error ("the provided object is nil, so the constructor cannot create an instance of "
      ++ "ToolchainObject")
  | some ob => .ok { Object := ob, gvk := ob.GroupVersionKind }

/-- `GetGvk` (toolchain_object.go:48-50). -/
def toolchainObjectImpl.GetGvk (o : toolchainObjectImpl) : GroupVersionKind :=
  o.gvk

/-- `GetClientObject` (toolchain_object.go:53-55). -/
def toolchainObjectImpl.GetClientObject (o : toolchainObjectImpl) : client.Object :=
  o.Object

/-- `GetNamespace`, promoted from the embedded `client.Object`. -/
def toolchainObjectImpl.GetNamespace (o : toolchainObjectImpl) : String :=
  o.Object.Namespace

/-- `GetName`, promoted from the embedded `client.Object`. -/
def toolchainObjectImpl.GetName (o : toolchainObjectImpl) : String :=
  o.Object.Name

/-- `HasSameGvk` (toolchain_object.go:58-60). -/
def toolchainObjectImpl.HasSameGvk (o otherObject : toolchainObjectImpl) : Bool :=
  o.gvk == otherObject.GetGvk

/-- `HasSameName` (toolchain_object.go:63-65). -/
def toolchainObjectImpl.HasSameName (o otherObject : toolchainObjectImpl) : Bool :=
  o.GetName == otherObject.GetName

/-- `HasSameGvkAndName` (toolchain_object.go:68-70). -/
def toolchainObjectImpl.HasSameGvkAndName (o otherObject : toolchainObjectImpl) : Bool :=
  o.HasSameGvk otherObject && o.HasSameName otherObject

/-- `type CompareToolchainObjects func(...) (bool, error)`
(toolchain_object.go:12). -/
abbrev CompareToolchainObjects :=
  toolchainObjectImpl → toolchainObjectImpl → Bool × Option String

/-- `type comparableToolchainObjectImpl struct` (toolchain_object.go:72-75). -/
structure comparableToolchainObjectImpl where
  ToolchainObject : toolchainObjectImpl
  compare : CompareToolchainObjects

/-- `NewComparableToolchainObject` (toolchain_object.go:78-87). -/
def NewComparableToolchainObject (ob : Option Object) (compare : CompareToolchainObjects) :
    Except String comparableToolchainObjectImpl :=
  match NewToolchainObject ob with
  | .error err => .error err
  | .ok toolchainObject => .ok { ToolchainObject := toolchainObject, compare := compare }

/-- `IsSame` (toolchain_object.go:89-91). -/
def comparableToolchainObjectImpl.IsSame (o : comparableToolchainObjectImpl)
    (otherObject : toolchainObjectImpl) : Bool × Option String :=
  o.compare o.ToolchainObject otherObject

/-- The key of an object in `SortToolchainObjectsByName`:
`fmt.Sprintf("%s,%s", object.GetNamespace(), object.GetName())`
(toolchain_object.go:100 and :106). -/
def namespacedKey (object : comparableToolchainObjectImpl) : String :=
  object.ToolchainObject.GetNamespace ++ "," ++ object.ToolchainObject.GetName

/-- `sort.Strings`: the strings in increasing order.  Equal strings cannot be
told apart, so the sorted arrangement is unique and the algorithm that finds it
does not matter. -/
def sortStrings (names : List String) : List String :=
  names.insertionSort (· ≤ ·)

/-- `SortToolchainObjectsByName` (toolchain_object.go:97-113).  The keys of the
objects are sorted; slot `i` of the result gets the first object of the input
whose key is the `i`-th sorted key, and stays nil (`none`) when the inner loop
finds none.  The input holds non-nil objects: the function calls a method of
each. -/
def SortToolchainObjectsByName (objects : List comparableToolchainObjectImpl) :
    List (Option comparableToolchainObjectImpl) :=
  let names := sortStrings (objects.map namespacedKey)
  names.map fun name => objects.find? fun object => namespacedKey object == name

end client

/-! ## Sample data -/

namespace sample

open cluster toolchaincluster client

/-- A Role named "edit" in the namespace "dev". -/
def editRole : comparableToolchainObjectImpl :=
  { ToolchainObject :=
      { Object := { Namespace := "dev", Name := "edit",
                    GroupVersionKind := ⟨"rbac.authorization.k8s.io", "v1", "Role"⟩,
                    content := 1 },
        gvk := ⟨"rbac.authorization.k8s.io", "v1", "Role"⟩ },
    compare := fun _ _ => (true, none) }

/-- A RoleBinding with the same name and namespace as `editRole`. -/
def editRoleBinding : comparableToolchainObjectImpl :=
  { ToolchainObject :=
      { Object := { Namespace := "dev", Name := "edit",
                    GroupVersionKind := ⟨"rbac.authorization.k8s.io", "v1", "RoleBinding"⟩,
                    content := 2 },
        gvk := ⟨"rbac.authorization.k8s.io", "v1", "RoleBinding"⟩ },
    compare := fun _ _ => (true, none) }

/-- A Role named "view" in the namespace "dev". -/
def viewRole : comparableToolchainObjectImpl :=
  { ToolchainObject :=
      { Object := { Namespace := "dev", Name := "view",
                    GroupVersionKind := ⟨"rbac.authorization.k8s.io", "v1", "Role"⟩,
                    content := 3 },
        gvk := ⟨"rbac.authorization.k8s.io", "v1", "Role"⟩ },
    compare := fun _ _ => (true, none) }

/-- A registry entry for the member cluster "stable". -/
def stableEntry : FedCluster :=
  { Client := 1, Name := "stable", «Type» := Member,
    OperatorNamespace := "toolchain-member-operator", ClusterStatus := none,
    OwnerClusterName := "host" }

/-- A second entry under the same name, differing in every other field. -/
def stableEntry2 : FedCluster :=
  { Client := 2, Name := "stable", «Type» := Host,
    OperatorNamespace := "toolchain-host-operator", ClusterStatus := some 7,
    OwnerClusterName := "member" }

/-- An entry for the member cluster "member-1". -/
def memberEntry : FedCluster :=
  { stableEntry with Name := "member-1" }

/-- A heap with `stableEntry` at address 1, `stableEntry2` at address 2,
`memberEntry` at address 3 and the zero struct everywhere else. -/
def heap : Heap := fun p =>
  match p with
  | 1 => stableEntry
  | 2 => stableEntry2
  | 3 => memberEntry
  | _ => { Client := 0, Name := "", «Type» := "", OperatorNamespace := "",
           ClusterStatus := none, OwnerClusterName := "" }

/-- A registry that holds the pointer to `stableEntry` only. -/
def stableCache : kubeFedClusterClients :=
  ⟨AList.singleton "stable" 1⟩

/-- The caller adds the struct at address 1, renames it, and adds it again. -/
def renameOps : List Op :=
  [.AddOrUpdate 1, .Write 1 { stableEntry with Name := "renamed" }, .AddOrUpdate 1]

/-- The caller adds the struct at address 1 and replaces its client, as
`setupCachedClusters` does; renames the struct at address 3 before it adds it;
and deletes "stable". -/
def quietOps : List Op :=
  [.AddOrUpdate 1, .Write 1 { stableEntry with Client := 9 },
   .Write 3 { memberEntry with Name := "member-2" }, .AddOrUpdate 3, .Delete "stable"]

/-- The tracked resource "stable" of the tests, with no condition yet. -/
def stableResource : TrackedClusterResource :=
  ⟨"stable", "test-namespace", "http://cluster.com", "secret", []⟩

/-- The request for `stableResource`. -/
def stableRequest : NamespacedName := ⟨"test-namespace", "stable"⟩

/-- A store that holds `stableResource` and whose operations succeed. -/
def goodStore : ResourceStore := ⟨[stableResource], none, none⟩

/-- A store that holds `stableResource` and whose status write fails. -/
def failingStore : ResourceStore := ⟨[stableResource], none, some "mock error"⟩

/-- A store that holds no resource. -/
def emptyStore : ResourceStore := ⟨[], none, none⟩

/-- A store whose read of the tracked resource fails with "mock error". -/
def unreadableStore : ResourceStore := ⟨[stableResource], some "mock error", none⟩

/-- A reconciler with a 10 s interval whose probe reports healthy. -/
def healthyReconciler : Reconciler := ⟨10000000000, fun _ => (true, none)⟩

/-- A reconciler with a 10 s interval whose probe fails with an error. -/
def failingReconciler : Reconciler := ⟨10000000000, fun _ => (false, some "my test error")⟩

end sample

open cluster toolchaincluster client

/-! ## Registry: lookup after a mutation -/

/-- C1: after `addFedCluster(e)` on any registry, for any struct `e` behind the
pointer, `getFedCluster(e.Name)` and `GetFedCluster(e.Name)` return found =
true together with the very pointer that was added, hence an entry that agrees
with `e` on Client, Name, Type, OperatorNamespace, ClusterStatus and
OwnerClusterName. -/
theorem get_after_add (c : kubeFedClusterClients) (heap : Heap) (p : FedClusterPtr) :
    ∃ c', c.addFedCluster heap (some p) = some c' ∧
      c'.getFedCluster (heap p).Name = (some p, true) ∧
      (GetFedCluster (heap p).Name c').1 = (some p, true) ∧
      ∀ q, (c'.getFedCluster (heap p).Name).1 = some q →
        heap q = heap p ∧
        (heap q).Client = (heap p).Client ∧ (heap q).Name = (heap p).Name ∧
        (heap q).«Type» = (heap p).«Type» ∧
        (heap q).OperatorNamespace = (heap p).OperatorNamespace ∧
        (heap q).ClusterStatus = (heap p).ClusterStatus ∧
        (heap q).OwnerClusterName = (heap p).OwnerClusterName := by
  have h : (kubeFedClusterClients.mk (c.clusters.insert (heap p).Name p)).getFedCluster
      (heap p).Name = (some p, true) := by
    simp [kubeFedClusterClients.getFedCluster, AList.lookup_insert]
  refine ⟨⟨c.clusters.insert (heap p).Name p⟩, rfl, h, ?_, ?_⟩
  · simpa [GetFedCluster] using h
  · intro q hq
    rw [h] at hq
    cases hq
    exact ⟨rfl, rfl, rfl, rfl, rfl, rfl, rfl⟩

/-- C2: after `deleteFedCluster(n)` on any registry, whether or not `n` was
present, `getFedCluster(n)` and `GetFedCluster(n)` return the nil entry with
found = false. -/
theorem get_after_delete (c : kubeFedClusterClients) (n : String) :
    (c.deleteFedCluster n).getFedCluster n = (none, false) ∧
      (GetFedCluster n (c.deleteFedCluster n)).1 = (none, false) := by
  have h : (c.deleteFedCluster n).getFedCluster n = (none, false) := by
    simp [kubeFedClusterClients.deleteFedCluster, kubeFedClusterClients.getFedCluster,
      AList.lookup_erase]
  exact ⟨h, by simpa [GetFedCluster] using h⟩

/-! ## Registry: replacement, absent names, first entry -/

/-- A stored pair is what the lookup of its key returns. -/
theorem get_of_mem_entries {c : kubeFedClusterClients} {k : String} {p : FedClusterPtr}
    (h : Sigma.mk k p ∈ c.clusters.entries) : c.getFedCluster k = (some p, true) := by
  have hl : c.clusters.lookup k = some p := AList.mem_lookup_iff.mpr h
  simp [kubeFedClusterClients.getFedCluster, hl]

/-- C7: for entries `e1`, `e2` with the same name (the structs behind `p1` and
`p2` at the time of their calls), `addFedCluster(e1)` followed by
`addFedCluster(e2)` yields the registry that `addFedCluster(e2)` alone yields;
in it the name is a key exactly once, every pointer stored under the name is
the pointer to `e2`, the lookup returns it, so the entry found is `e2` in every
field, and the registry has as many entries as after the single add of `e1`. -/
theorem add_twice_same_name (c : kubeFedClusterClients) (heap1 heap2 : Heap)
    (p1 p2 : FedClusterPtr) (h : (heap1 p1).Name = (heap2 p2).Name) :
    ∃ c1 c2, c.addFedCluster heap1 (some p1) = some c1 ∧
      c1.addFedCluster heap2 (some p2) = some c2 ∧
      c.addFedCluster heap2 (some p2) = some c2 ∧
      c2.getFedCluster (heap2 p2).Name = (some p2, true) ∧
      c2.clusters.keys.count (heap2 p2).Name = 1 ∧
      (∀ x ∈ c2.clusters.entries, x.1 = (heap2 p2).Name → x.2 = p2) ∧
      (∀ q, (c2.getFedCluster (heap2 p2).Name).1 = some q → heap2 q = heap2 p2) ∧
      c2.len = c1.len := by
  have hl : (c.clusters.insert (heap2 p2).Name p2).lookup (heap2 p2).Name = some p2 :=
    AList.lookup_insert _
  have hg : (kubeFedClusterClients.mk (c.clusters.insert (heap2 p2).Name p2)).getFedCluster
      (heap2 p2).Name = (some p2, true) := by
    simp [kubeFedClusterClients.getFedCluster, hl]
  refine ⟨⟨c.clusters.insert (heap1 p1).Name p1⟩, ⟨c.clusters.insert (heap2 p2).Name p2⟩,
    rfl, ?_, rfl, hg, ?_, ?_, ?_, ?_⟩
  · simp only [kubeFedClusterClients.addFedCluster, h]
    rw [AList.insert_insert]
  · apply List.count_eq_one_of_mem (AList.keys_nodup _)
    simp [AList.keys_insert]
  · rintro ⟨k, v⟩ hx hk
    simp only at hk
    subst hk
    have hv : v ∈ (c.clusters.insert (heap2 p2).Name p2).lookup (heap2 p2).Name :=
      AList.mem_lookup_iff.mpr hx
    rw [hl] at hv
    simpa using hv.symm
  · intro q hq
    rw [hg] at hq
    cases hq
    rfl
  · simp [kubeFedClusterClients.len, AList.insert_entries, h]

/-- C9: for every choice the runtime makes for the iteration,
`getFirstFedCluster` returns the nil entry with found = false exactly when the
registry is empty; when it returns found = true the entry is one the registry
stores (the lookup of some name returns it), for a registry with a single entry
it is that entry, and `GetFirstFedCluster` hands back the registry it was
given. -/
theorem getFirst_spec (c : kubeFedClusterClients) (start : Nat) :
    (c.getFirstFedCluster start = (none, false) ↔ c.len = 0) ∧
    ((c.getFirstFedCluster start).2 = false ↔ c.len = 0) ∧
    ((c.getFirstFedCluster start).2 = true →
      ∃ e k, (c.getFirstFedCluster start).1 = some e ∧
        c.getFedCluster k = (some e, true)) ∧
    (∀ k e, c.clusters.entries = [Sigma.mk k e] →
      c.getFirstFedCluster start = (some e, true)) ∧
    (GetFirstFedCluster start c).1 = c.getFirstFedCluster start ∧
    (GetFirstFedCluster start c).2 = c := by
  refine ⟨?_, ?_, ?_, ?_, rfl, rfl⟩
  all_goals simp only [kubeFedClusterClients.getFirstFedCluster, rangeOrder,
    kubeFedClusterClients.len]
  · cases hr : c.clusters.entries.rotate start with
    | nil => simpa using List.rotate_eq_nil_iff.mp hr
    | cons x xs =>
      have hne : c.clusters.entries ≠ [] := fun h0 => by
        rw [List.rotate_eq_nil_iff.mpr h0] at hr; cases hr
      simpa using hne
  · cases hr : c.clusters.entries.rotate start with
    | nil => simpa using List.rotate_eq_nil_iff.mp hr
    | cons x xs =>
      have hne : c.clusters.entries ≠ [] := fun h0 => by
        rw [List.rotate_eq_nil_iff.mpr h0] at hr; cases hr
      simpa using hne
  · cases hr : c.clusters.entries.rotate start with
    | nil => simp
    | cons x xs =>
      intro _
      obtain ⟨k, e⟩ := x
      have hx : Sigma.mk k e ∈ c.clusters.entries := by
        have : Sigma.mk k e ∈ c.clusters.entries.rotate start := by rw [hr]; simp
        exact List.mem_rotate.mp this
      exact ⟨e, k, rfl, get_of_mem_entries hx⟩
  · intro k e hs
    rw [hs, List.rotate_singleton]

/-- Every stored entry is the first one visited for some choice of the
runtime: the model of `range` does not fix the iteration order. -/
theorem getFirst_any (c : kubeFedClusterClients) (k : String) (e : FedClusterPtr)
    (h : Sigma.mk k e ∈ c.clusters.entries) :
    ∃ start, c.getFirstFedCluster start = (some e, true) := by
  obtain ⟨i, hi, hget⟩ := List.getElem_of_mem h
  refine ⟨i, ?_⟩
  unfold kubeFedClusterClients.getFirstFedCluster rangeOrder
  have hr : c.clusters.entries.rotate i
      = c.clusters.entries.drop i ++ c.clusters.entries.take i :=
    List.rotate_eq_drop_append_take (Nat.le_of_lt hi)
  rw [hr, List.drop_eq_getElem_cons hi, hget]
  rfl

/-- C7 at sample data: two structs named "stable", at the addresses 1 and 2,
added to the empty registry. -/
theorem add_twice_same_name_witness :
    (sample.heap 1).Name = (sample.heap 2).Name ∧
    ∃ c1 c2, clusterCache.addFedCluster sample.heap (some 1) = some c1 ∧
      c1.addFedCluster sample.heap (some 2) = some c2 ∧
      clusterCache.addFedCluster sample.heap (some 2) = some c2 ∧
      c2.getFedCluster (sample.heap 2).Name = (some 2, true) ∧
      c2.clusters.keys.count (sample.heap 2).Name = 1 ∧
      (∀ x ∈ c2.clusters.entries, x.1 = (sample.heap 2).Name → x.2 = 2) ∧
      (∀ q, (c2.getFedCluster (sample.heap 2).Name).1 = some q →
        sample.heap q = sample.heap 2) ∧
      c2.len = c1.len :=
  ⟨rfl, add_twice_same_name clusterCache sample.heap sample.heap 1 2 rfl⟩

/-- A lookup that reports not-found returns the nil entry. -/
theorem get_eq_of_false {c : kubeFedClusterClients} {n : String}
    (h : (c.getFedCluster n).2 = false) : c.getFedCluster n = (none, false) := by
  unfold kubeFedClusterClients.getFedCluster at h ⊢
  cases hl : c.clusters.lookup n with
  | none => rfl
  | some e => rw [hl] at h; cases h

/-- A resource that was fetched is stored under the requested key, and the
read was not made to fail. -/
theorem fetch_found {store : ResourceStore} {req : NamespacedName}
    {tc : TrackedClusterResource} (h : store.fetch req = .found tc) :
    store.fetchFailure = none ∧
      store.resources.find? (fun t => t.hasKey req) = some tc ∧
      tc.Namespace = req.Namespace ∧ tc.Name = req.Name := by
  unfold ResourceStore.fetch at h
  cases hf : store.fetchFailure with
  | some x => rw [hf] at h; cases h
  | none =>
    rw [hf] at h
    cases hr : store.resources.find? (fun t => t.hasKey req) with
    | none => rw [hr] at h; cases h
    | some t =>
      rw [hr] at h
      simp only [FetchOutcome.found.injEq] at h
      subst h
      have hk := List.find?_some hr
      simp only [TrackedClusterResource.hasKey, Bool.and_eq_true, beq_iff_eq] at hk
      exact ⟨rfl, rfl, hk.1, hk.2⟩

/-- A status write that is made to fail returns its error and the store as it
was. -/
theorem writeStatus_failure {store : ResourceStore} {w : String}
    (h : store.writeFailure = some w) (tc : TrackedClusterResource) :
    store.writeStatus tc = (store, some w) := by
  simp [ResourceStore.writeStatus, h]

/-- After a status write that succeeds, reading the resource back returns it
with the conditions that were written. -/
theorem fetch_after_write {store : ResourceStore} {req : NamespacedName}
    {tc : TrackedClusterResource} (hfetch : store.fetch req = .found tc)
    (hw : store.writeFailure = none) (cs : List Condition) :
    (store.writeStatus { tc with conditions := cs }).2 = none ∧
      (store.writeStatus { tc with conditions := cs }).1.fetch req
        = .found { tc with conditions := cs } := by
  obtain ⟨hf, hfind, hns, hn⟩ := fetch_found hfetch
  have hcomp : ((fun t : TrackedClusterResource => t.hasKey req) ∘
      fun r : TrackedClusterResource =>
        if r.hasKey ⟨tc.Namespace, tc.Name⟩ then { r with conditions := cs } else r)
      = fun t => t.hasKey req := by
    funext r
    simp only [Function.comp, TrackedClusterResource.hasKey]
    split <;> rfl
  have hself : tc.hasKey ⟨tc.Namespace, tc.Name⟩ = true := by
    simp [TrackedClusterResource.hasKey]
  simp only [ResourceStore.writeStatus, hw, ResourceStore.fetch, hf, List.find?_map, hcomp,
    hfind, Option.map_some', hself, if_true, and_self]

/-- Writing a condition leaves it among the conditions. -/
theorem mem_setCondition (ds : List Condition) (c : Condition) : c ∈ setCondition ds c := by
  induction ds with
  | nil => simp [setCondition]
  | cons d ds ih =>
    unfold setCondition
    split
    · simp
    · exact List.mem_cons_of_mem _ ih

/-- C3: when the tracked resource `n` exists and the registry has no entry for
`n`, Reconcile returns the error "cluster n not found in cache"; and when the
status write succeeds, the resource read back afterwards has the Offline
condition with that same message among its conditions. -/
theorem reconcile_registry_miss (r : Reconciler) (req : NamespacedName)
    (cache : kubeFedClusterClients) (heap : Heap)
      (store : ResourceStore) (tc : TrackedClusterResource)
    (hfetch : store.fetch req = .found tc)
    (hmiss : (cache.getFedCluster req.Name).2 = false) :
    (r.Reconcile req cache heap store).1.2
        = some ("cluster " ++ req.Name ++ " not found in cache") ∧
    (store.writeFailure = none →
      ∃ conds, persistedConditions (r.Reconcile req cache heap store).2 req = some conds ∧
        ∃ cond ∈ conds, cond.isOffline = true ∧
          cond.message = "cluster " ++ req.Name ++ " not found in cache") := by
  obtain ⟨_, _, _, hn⟩ := fetch_found hfetch
  have hget : (GetFedCluster tc.Name cache).1 = (none, false) := by
    rw [hn]; exact get_eq_of_false hmiss
  have hrec : r.Reconcile req cache heap store
      = (({}, some (notFoundInCache tc.Name)),
          (store.writeStatus { tc with
            conditions := setCondition tc.conditions (ConditionBuilder (.miss tc.Name)) }).1) := by
    simp only [Reconciler.Reconcile, hfetch, hget]
  rw [hrec]
  refine ⟨by rw [hn]; rfl, fun hw => ?_⟩
  obtain ⟨_, hread⟩ := fetch_after_write hfetch hw
    (setCondition tc.conditions (ConditionBuilder (.miss tc.Name)))
  refine ⟨setCondition tc.conditions (ConditionBuilder (.miss tc.Name)),
    by simp only [persistedConditions, hread], ConditionBuilder (.miss tc.Name),
    mem_setCondition _ _, rfl, by rw [← hn]; rfl⟩

/-- C4: when the registry has no entry for `n` and the status write of the
pass fails with an error `W`, Reconcile returns the error "cluster n not found
in cache" and the empty result, and the store, hence the conditions of the
stored resource, is as it was. -/
theorem reconcile_miss_write_fails (r : Reconciler) (req : NamespacedName)
    (cache : kubeFedClusterClients) (heap : Heap)
      (store : ResourceStore) (tc : TrackedClusterResource)
    (W : String)
    (hfetch : store.fetch req = .found tc)
    (hmiss : (cache.getFedCluster req.Name).2 = false)
    (hW : store.writeFailure = some W) :
    r.Reconcile req cache heap store
        = ((⟨false, 0⟩, some ("cluster " ++ req.Name ++ " not found in cache")), store) ∧
    persistedConditions (r.Reconcile req cache heap store).2 req = some tc.conditions := by
  obtain ⟨_, _, _, hn⟩ := fetch_found hfetch
  have hget : (GetFedCluster tc.Name cache).1 = (none, false) := by
    rw [hn]; exact get_eq_of_false hmiss
  have hrec : r.Reconcile req cache heap store
      = ((⟨false, 0⟩, some ("cluster " ++ req.Name ++ " not found in cache")), store) := by
    simp only [Reconciler.Reconcile, hfetch, hget, writeStatus_failure hW, notFoundInCache]
    rw [hn]
  refine ⟨hrec, ?_⟩
  rw [hrec]
  simp only [persistedConditions, hfetch]

/-- C5: when the registry has an entry for `n`, the probe returns `(false, E)`
and the status write fails with `W`, Reconcile returns the error "failed to
update the status of cluster - n: W" and the empty result. -/
theorem reconcile_probe_and_write_fail (r : Reconciler) (req : NamespacedName)
    (cache : kubeFedClusterClients) (heap : Heap)
      (store : ResourceStore) (tc : TrackedClusterResource)
    (p : FedClusterPtr) (E : Option String) (W : String)
    (hfetch : store.fetch req = .found tc)
    (hhit : cache.getFedCluster req.Name = (some p, true))
    (hprobe : r.checkHealth (heap p).Client = (false, E))
    (hW : store.writeFailure = some W) :
    (r.Reconcile req cache heap store).1
      = (⟨false, 0⟩,
          some ("failed to update the status of cluster - " ++ req.Name ++ ": " ++ W)) := by
  obtain ⟨_, _, _, hn⟩ := fetch_found hfetch
  have hget : (GetFedCluster tc.Name cache).1 = (some p, true) := by
    rw [hn]; exact hhit
  simp only [Reconciler.Reconcile, hfetch, hget, hprobe, writeStatus_failure hW,
    failedToUpdate]
  rw [hn]

/-- C6: when the registry has an entry for the cluster, the interval is `d`,
the probe returns `(healthy, err)` and the status write succeeds, Reconcile
returns no error and the result with RequeueAfter = `d`, and the resource read
back afterwards has the condition built from the probe among its conditions:
the Ready condition if `healthy`, the NotReady condition if not. -/
theorem reconcile_probed (d : Nat) (probe : Client → Bool × Option String)
    (req : NamespacedName) (cache : kubeFedClusterClients) (heap : Heap) (store : ResourceStore)
    (tc : TrackedClusterResource) (p : FedClusterPtr) (healthy : Bool) (err : Option String)
    (hfetch : store.fetch req = .found tc)
    (hhit : cache.getFedCluster req.Name = (some p, true))
    (hprobe : probe (heap p).Client = (healthy, err))
    (hW : store.writeFailure = none) :
    ((Reconciler.mk d probe).Reconcile req cache heap store).1 = (⟨false, d⟩, none) ∧
    persistedConditions ((Reconciler.mk d probe).Reconcile req cache heap store).2 req
      = some (setCondition tc.conditions (ConditionBuilder (.probed healthy err))) ∧
    ∃ conds cond,
      persistedConditions ((Reconciler.mk d probe).Reconcile req cache heap store).2 req
        = some conds ∧ cond ∈ conds ∧
      (healthy = true → cond.isReady = true) ∧
      (healthy = false → cond.isNotReady = true) := by
  obtain ⟨_, _, _, hn⟩ := fetch_found hfetch
  have hget : (GetFedCluster tc.Name cache).1 = (some p, true) := by
    rw [hn]; exact hhit
  obtain ⟨hok, hread⟩ := fetch_after_write hfetch hW
    (setCondition tc.conditions (ConditionBuilder (.probed healthy err)))
  have hpair : store.writeStatus { tc with
        conditions := setCondition tc.conditions (ConditionBuilder (.probed healthy err)) }
      = ((store.writeStatus { tc with
          conditions := setCondition tc.conditions (ConditionBuilder (.probed healthy err)) }).1,
        none) := by
    rw [← hok]
  have hrec : (Reconciler.mk d probe).Reconcile req cache heap store
      = ((⟨false, d⟩, none), (store.writeStatus { tc with
          conditions := setCondition tc.conditions (ConditionBuilder (.probed healthy err)) }).1) := by
    simp only [Reconciler.Reconcile, hfetch, hget, hprobe]
    rw [hpair]
  have hpers : persistedConditions ((Reconciler.mk d probe).Reconcile req cache heap store).2 req
      = some (setCondition tc.conditions (ConditionBuilder (.probed healthy err))) := by
    rw [hrec]; simp only [persistedConditions, hread]
  refine ⟨by rw [hrec], hpers, _, ConditionBuilder (.probed healthy err), hpers,
    mem_setCondition _ _, ?_, ?_⟩
  · rintro rfl; rfl
  · rintro rfl; rfl

/-- C10: when the fetch reports that the tracked resource does not exist,
Reconcile returns no error and the result with Requeue = false and
RequeueAfter = 0, whatever the registry holds, and the store is as it was: no
status is written. -/
theorem reconcile_resource_absent (r : Reconciler) (req : NamespacedName)
    (cache : kubeFedClusterClients) (heap : Heap) (store : ResourceStore)
    (hfetch : store.fetch req = .notFound) :
    r.Reconcile req cache heap store = ((⟨false, 0⟩, none), store) := by
  simp only [Reconciler.Reconcile, hfetch]

/-! ## Reconciliation at sample data -/

/-- C3 at sample data: the resource "stable" exists, the registry is empty and
the status write succeeds. -/
theorem reconcile_registry_miss_witness :
    (sample.healthyReconciler.Reconcile sample.stableRequest clusterCache
      sample.heap sample.goodStore).1.2
        = some "cluster stable not found in cache" ∧
    ∃ conds,
      persistedConditions
        (sample.healthyReconciler.Reconcile sample.stableRequest clusterCache sample.heap
          sample.goodStore).2 sample.stableRequest = some conds ∧
      ∃ cond ∈ conds, cond.isOffline = true ∧
        cond.message = "cluster stable not found in cache" :=
  ⟨(reconcile_registry_miss sample.healthyReconciler sample.stableRequest clusterCache sample.heap
      sample.goodStore sample.stableResource rfl rfl).1,
    (reconcile_registry_miss sample.healthyReconciler sample.stableRequest clusterCache sample.heap
      sample.goodStore sample.stableResource rfl rfl).2 rfl⟩

/-- C4 at sample data: the resource "stable" exists, the registry is empty and
the status write fails with "mock error". -/
theorem reconcile_miss_write_fails_witness :
    sample.healthyReconciler.Reconcile sample.stableRequest clusterCache
      sample.heap sample.failingStore
      = ((⟨false, 0⟩, some "cluster stable not found in cache"), sample.failingStore) :=
  (reconcile_miss_write_fails sample.healthyReconciler sample.stableRequest clusterCache sample.heap
    sample.failingStore sample.stableResource "mock error" rfl rfl rfl).1

/-- C5 at sample data: the registry holds "stable", the probe fails with "my
test error" and the status write fails with "mock error". -/
theorem reconcile_probe_and_write_fail_witness :
    (sample.failingReconciler.Reconcile sample.stableRequest sample.stableCache sample.heap
        sample.failingStore).1
      = (⟨false, 0⟩, some "failed to update the status of cluster - stable: mock error") :=
  reconcile_probe_and_write_fail sample.failingReconciler sample.stableRequest
    sample.stableCache sample.heap sample.failingStore sample.stableResource 1
    (some "my test error") "mock error" rfl rfl rfl rfl

/-- C6 at sample data: the registry holds "stable", the interval is 10 s, the
probe reports healthy and the status write succeeds. -/
theorem reconcile_probed_witness :
    ((Reconciler.mk 10000000000 fun _ => (true, none)).Reconcile sample.stableRequest
        sample.stableCache sample.heap sample.goodStore).1 = (⟨false, 10000000000⟩, none) :=
  (reconcile_probed 10000000000 (fun _ => (true, none)) sample.stableRequest
    sample.stableCache sample.heap sample.goodStore sample.stableResource 1 true none
    rfl rfl rfl rfl).1

/-- C10 at sample data: the store holds no resource while the registry holds
"stable". -/
theorem reconcile_resource_absent_witness :
    sample.healthyReconciler.Reconcile sample.stableRequest sample.stableCache sample.heap
      sample.emptyStore = ((⟨false, 0⟩, none), sample.emptyStore) :=
  reconcile_resource_absent sample.healthyReconciler sample.stableRequest sample.stableCache
    sample.heap
    sample.emptyStore rfl

/-! ## Reconciliation: fetch errors -/

/-- C11: when reading the tracked resource fails with an error `x` other than
not-found, Reconcile returns exactly `x` and the result with Requeue = false
and RequeueAfter = 0; the store is as it was (no status is written) and the
outcome is the same whatever probe and interval the reconciler has (the probe
is not consulted). -/
theorem reconcile_fetch_error (r : Reconciler) (req : NamespacedName)
    (cache : kubeFedClusterClients) (heap : Heap) (store : ResourceStore) (x : String)
    (hfetch : store.fetch req = .failed x) :
    r.Reconcile req cache heap store = ((⟨false, 0⟩, some x), store) ∧
    ∀ r' : Reconciler, r'.Reconcile req cache heap store = r.Reconcile req cache heap store := by
  have h : ∀ q : Reconciler, q.Reconcile req cache heap store = ((⟨false, 0⟩, some x), store) := by
    intro q
    simp only [Reconciler.Reconcile, hfetch]
  exact ⟨h r, fun r' => by rw [h r', h r]⟩

/-- C11 at sample data: the read of "stable" fails with "mock error". -/
theorem reconcile_fetch_error_witness :
    sample.healthyReconciler.Reconcile sample.stableRequest sample.stableCache sample.heap
      sample.unreadableStore = ((⟨false, 0⟩, some "mock error"), sample.unreadableStore) :=
  (reconcile_fetch_error sample.healthyReconciler sample.stableRequest sample.stableCache
    sample.heap
    sample.unreadableStore "mock error" rfl).1

/-! ## Toolchain objects: construction -/

/-- C14: `NewToolchainObject` returns an error exactly when the given object is
nil; for a non-nil object `o` it returns a ToolchainObject whose
`GetClientObject()` is `o` and whose `GetGvk()` is the group-version-kind of
`o`; and `NewComparableToolchainObject` returns an error on exactly the same
inputs, and the same error. -/
theorem newToolchainObject_spec (ob : Option Object) (compare : CompareToolchainObjects) :
    ((∃ err, NewToolchainObject ob = .error err) ↔ ob = none) ∧
    (∀ o, ob = some o → ∃ t, NewToolchainObject ob = .ok t ∧
      t.GetClientObject = o ∧ t.GetGvk = o.GroupVersionKind) ∧
    (∀ err, NewComparableToolchainObject ob compare = .error err ↔
      NewToolchainObject ob = .error err) ∧
    ((∃ err, NewComparableToolchainObject ob compare = .error err) ↔ ob = none) := by
  cases ob with
  | none =>
    refine ⟨⟨fun _ => rfl, fun _ => ⟨_, rfl⟩⟩, ?_, ?_, ⟨fun _ => rfl, fun _ => ⟨_, rfl⟩⟩⟩
    · intro o h
      cases h
    · intro err
      simp [NewComparableToolchainObject, NewToolchainObject]
  | some o =>
    refine ⟨⟨?_, ?_⟩, ?_, ?_, ⟨?_, ?_⟩⟩
    · rintro ⟨_, h⟩
      cases h
    · intro h
      cases h
    · intro o' h
      cases h
      exact ⟨_, rfl, rfl, rfl⟩
    · intro err
      simp [NewComparableToolchainObject, NewToolchainObject]
    · rintro ⟨_, h⟩
      cases h
    · intro h
      cases h

/-! ## Registry: invariant and frame -/

/-- The registry holds a pointer exactly when some entry of the map is that
pointer. -/
theorem holds_of_mem {c : kubeFedClusterClients} {x : Sigma fun _ : String => FedClusterPtr}
    (h : x ∈ c.clusters.entries) : c.holds x.2 = true := by
  simp only [kubeFedClusterClients.holds, List.any_eq_true, beq_iff_eq]
  exact ⟨x, h, rfl⟩

/-- One step that keeps the names keeps every key equal to the Name of the
struct its pointer points to. -/
theorem names_match_after_apply {heap heap' : Heap} {c c' : kubeFedClusterClients} (op : Op)
    (h : ∀ x ∈ c.clusters.entries, (heap x.2).Name = x.1)
    (hkeep : op.keepsNames heap c = true) (hop : c.apply heap op = some (heap', c')) :
    ∀ x ∈ c'.clusters.entries, (heap' x.2).Name = x.1 := by
  cases op with
  | AddOrUpdate p =>
    simp only [kubeFedClusterClients.apply, kubeFedClusterClients.addFedCluster,
      Option.map_some', Option.some.injEq, Prod.mk.injEq] at hop
    obtain ⟨rfl, rfl⟩ := hop
    intro x hx
    simp only [AList.insert_entries, List.mem_cons] at hx
    rcases hx with rfl | hx
    · rfl
    · exact h x ((List.kerase_sublist _ _).subset hx)
  | Delete n =>
    simp only [kubeFedClusterClients.apply, Option.some.injEq, Prod.mk.injEq] at hop
    obtain ⟨rfl, rfl⟩ := hop
    intro x hx
    exact h x ((List.kerase_sublist _ _).subset hx)
  | Write p v =>
    simp only [kubeFedClusterClients.apply, Option.some.injEq, Prod.mk.injEq] at hop
    obtain ⟨rfl, rfl⟩ := hop
    intro x hx
    simp only [Heap.store]
    split
    · rename_i hxp
      have hheld : c.holds p = true := hxp ▸ holds_of_mem hx
      simp only [Op.keepsNames, hheld, Bool.not_true, Bool.false_or, beq_iff_eq] at hkeep
      rw [hkeep, ← hxp]
      exact h x hx
    · exact h x hx

/-- A sequence of steps that keep the names never panics and keeps every key
equal to the Name of the struct its pointer points to. -/
theorem names_match_after_run (ops : List Op) :
    ∀ (heap : Heap) (c : kubeFedClusterClients),
      (∀ x ∈ c.clusters.entries, (heap x.2).Name = x.1) → c.namesKept heap ops = true →
      ∃ heap' c', c.run heap ops = some (heap', c') ∧
        ∀ x ∈ c'.clusters.entries, (heap' x.2).Name = x.1 := by
  induction ops with
  | nil => exact fun heap c h _ => ⟨heap, c, rfl, h⟩
  | cons op ops ih =>
    intro heap c h hkept
    have hstep : ∃ heap1 c1, c.apply heap op = some (heap1, c1) := by
      cases op with
      | AddOrUpdate p => exact ⟨_, _, rfl⟩
      | Delete n => exact ⟨_, _, rfl⟩
      | Write p v => exact ⟨_, _, rfl⟩
    obtain ⟨heap1, c1, h1⟩ := hstep
    simp only [kubeFedClusterClients.namesKept, h1, Bool.and_eq_true] at hkept
    obtain ⟨heap', c', hrun, hinv⟩ :=
      ih heap1 c1 (names_match_after_apply op h hkept.1 h1) hkept.2
    refine ⟨heap', c', ?_, hinv⟩
    simp only [kubeFedClusterClients.run, h1, hrun]

/-- C16, as it fails: the caller adds the struct at address 1 under its name
"stable", renames the struct to "renamed" and adds it again.  The registry
stores the pointer, so the key "stable" is now bound to an entry whose Name is
"renamed": the lookup of "stable" finds an entry of another name. -/
theorem registry_names_mismatch :
    ∃ heap c, clusterCache.run sample.heap sample.renameOps = some (heap, c) ∧
      c.getFedCluster "stable" = (some 1, true) ∧
      (heap 1).Name = "renamed" ∧
      ¬ (∀ n p, c.getFedCluster n = (some p, true) → (heap p).Name = n) ∧
      ¬ (∀ x ∈ c.clusters.entries, (heap x.2).Name = x.1) := by
  refine ⟨_, _, rfl, rfl, rfl, ?_, ?_⟩
  · intro hall
    have h1 := hall "stable" 1 rfl
    revert h1
    decide
  · intro hall
    have h1 := hall ⟨"stable", 1⟩ (by decide)
    revert h1
    decide

/-- C16, amended: every sequence of `addFedCluster` calls, `deleteFedCluster`
calls and assignments by the callers in which no struct is renamed while the
registry holds a pointer to it, run on the empty registry, ends in a registry
in which each key is bound to an entry whose Name is that key; hence a lookup
of `n` that finds `e` has `e.Name = n`, and an entry that `getFirstFedCluster`
returns is the one the lookup of its own name returns. -/
theorem registry_names_match (heap0 : Heap) (ops : List Op)
    (hkept : clusterCache.namesKept heap0 ops = true) :
    ∃ heap c, clusterCache.run heap0 ops = some (heap, c) ∧
      (∀ x ∈ c.clusters.entries, (heap x.2).Name = x.1) ∧
      (∀ n p, c.getFedCluster n = (some p, true) → (heap p).Name = n) ∧
      (∀ start p, c.getFirstFedCluster start = (some p, true) →
        c.getFedCluster (heap p).Name = (some p, true)) := by
  obtain ⟨heap, c, hrun, hinv⟩ := names_match_after_run ops heap0 clusterCache (by
    intro x hx
    simp [clusterCache] at hx) hkept
  refine ⟨heap, c, hrun, hinv, ?_, ?_⟩
  · intro n p hget
    unfold kubeFedClusterClients.getFedCluster at hget
    cases hl : c.clusters.lookup n with
    | none => rw [hl] at hget; cases hget
    | some g =>
      rw [hl] at hget
      cases hget
      exact hinv ⟨n, p⟩ (AList.mem_lookup_iff.mp hl)
  · intro start p hfirst
    simp only [kubeFedClusterClients.getFirstFedCluster, rangeOrder] at hfirst
    cases hr : c.clusters.entries.rotate start with
    | nil => rw [hr] at hfirst; cases hfirst
    | cons x xs =>
      rw [hr] at hfirst
      obtain ⟨k, v⟩ := x
      cases hfirst
      have hx : Sigma.mk k p ∈ c.clusters.entries := by
        have : Sigma.mk k p ∈ c.clusters.entries.rotate start := by rw [hr]; simp
        exact List.mem_rotate.mp this
      have hk : (heap p).Name = k := hinv _ hx
      rw [hk]
      exact get_of_mem_entries hx

/-- C16, amended, at sample data: the struct at address 1 is added and its
client replaced, the struct at address 3 is renamed before it is added, and
"stable" is deleted. -/
theorem registry_names_match_witness :
    clusterCache.namesKept sample.heap sample.quietOps = true ∧
    ∃ heap c, clusterCache.run sample.heap sample.quietOps = some (heap, c) ∧
      (∀ x ∈ c.clusters.entries, (heap x.2).Name = x.1) ∧
      (∀ n p, c.getFedCluster n = (some p, true) → (heap p).Name = n) ∧
      (∀ start p, c.getFirstFedCluster start = (some p, true) →
        c.getFedCluster (heap p).Name = (some p, true)) :=
  ⟨rfl, registry_names_match sample.heap sample.quietOps rfl⟩

/-- C17: for names `m ≠ e.Name` and `m ≠ n`, the lookup of `m` returns the same
entry and the same found flag after `addFedCluster(e)` as before, and the same
after `deleteFedCluster(n)` as before; and `GetFedCluster` and
`GetFirstFedCluster` hand back the registry they were given. -/
theorem other_names_untouched (c : kubeFedClusterClients) (heap : Heap) (p : FedClusterPtr)
    (n m : String) (h1 : m ≠ (heap p).Name) (h2 : m ≠ n) :
    (∃ c', c.addFedCluster heap (some p) = some c' ∧
      c'.getFedCluster m = c.getFedCluster m) ∧
    (c.deleteFedCluster n).getFedCluster m = c.getFedCluster m ∧
    (∀ k, (GetFedCluster k c).2 = c) ∧
    (∀ start, (GetFirstFedCluster start c).2 = c) := by
  refine ⟨⟨_, rfl, ?_⟩, ?_, fun _ => rfl, fun _ => rfl⟩
  · simp only [kubeFedClusterClients.getFedCluster, AList.lookup_insert_ne h1]
  · simp only [kubeFedClusterClients.getFedCluster, kubeFedClusterClients.deleteFedCluster,
      AList.lookup_erase_ne h2]

/-- C17 at sample data: the lookup of "stable" around an add of "member-1" and
a delete of "member-2". -/
theorem other_names_untouched_witness :
    (∃ c', sample.stableCache.addFedCluster sample.heap (some 3) = some c' ∧
      c'.getFedCluster "stable" = sample.stableCache.getFedCluster "stable") ∧
    (sample.stableCache.deleteFedCluster "member-2").getFedCluster "stable"
      = sample.stableCache.getFedCluster "stable" :=
  ⟨(other_names_untouched sample.stableCache sample.heap 3 "member-2" "stable"
      (by decide) (by decide)).1,
   (other_names_untouched sample.stableCache sample.heap 3 "member-2" "stable"
      (by decide) (by decide)).2.1⟩

/-! ## Toolchain objects: sorting -/

/-- Any sorted arrangement of the given strings is the one `sortStrings`
returns. -/
theorem sortStrings_unique (names sorted : List String) (hp : sorted.Perm names)
    (hs : sorted.Sorted (· ≤ ·)) : sortStrings names = sorted :=
  List.eq_of_perm_of_sorted ((List.perm_insertionSort _ names).trans hp.symm)
    (List.sorted_insertionSort _ names) hs

/-- The inner loop finds an object for every key that occurs in the input, and
the object it finds has that key. -/
theorem find_key (objects : List comparableToolchainObjectImpl) (name : String)
    (h : name ∈ objects.map namespacedKey) :
    ∃ o, objects.find? (fun object => namespacedKey object == name) = some o ∧
      namespacedKey o = name ∧ o ∈ objects := by
  cases hf : objects.find? (fun object => namespacedKey object == name) with
  | none =>
    obtain ⟨o, ho, hk⟩ := List.mem_map.mp h
    have := List.find?_eq_none.mp hf o ho
    simp [hk] at this
  | some o =>
    have hk := List.find?_some hf
    exact ⟨o, rfl, by simpa using hk, List.mem_of_find?_eq_some hf⟩

/-- When every key of `names` occurs in the input, no slot filled from `names`
stays nil, and the keys of the objects in the slots are `names`. -/
theorem slots_filled (objects : List comparableToolchainObjectImpl) (names : List String)
    (h : ∀ name ∈ names, name ∈ objects.map namespacedKey) :
    ∃ out : List comparableToolchainObjectImpl,
      names.map (fun name => objects.find? fun object => namespacedKey object == name)
        = out.map some ∧
      out.map namespacedKey = names ∧ ∀ o ∈ out, o ∈ objects := by
  induction names with
  | nil => exact ⟨[], rfl, rfl, by simp⟩
  | cons name names ih =>
    obtain ⟨out, h1, h2, h3⟩ := ih fun n hn => h n (List.mem_cons_of_mem _ hn)
    obtain ⟨o, ho, hk, hmem⟩ := find_key objects name (h name (List.mem_cons_self _ _))
    refine ⟨o :: out, ?_, ?_, ?_⟩
    · simp only [List.map_cons, ho, h1]
    · simp only [List.map_cons, hk, h2]
    · intro x hx
      rcases List.mem_cons.mp hx with rfl | hx
      · exact hmem
      · exact h3 x hx

/-- The result holds no nil slot, and its objects carry the sorted keys. -/
theorem sort_slots (objects : List comparableToolchainObjectImpl) :
    ∃ out : List comparableToolchainObjectImpl,
      SortToolchainObjectsByName objects = out.map some ∧
      out.map namespacedKey = sortStrings (objects.map namespacedKey) ∧
      ∀ o ∈ out, o ∈ objects :=
  slots_filled objects (sortStrings (objects.map namespacedKey)) fun _ hn =>
    (List.mem_insertionSort _).mp hn

/-- With pairwise distinct keys, the inner loop finds for the key of an object
of the input that very object. -/
theorem find_self (objects : List comparableToolchainObjectImpl)
    (h : (objects.map namespacedKey).Nodup) (o : comparableToolchainObjectImpl)
    (ho : o ∈ objects) :
    objects.find? (fun object => namespacedKey object == namespacedKey o) = some o := by
  induction objects with
  | nil => cases ho
  | cons a as ih =>
    rw [List.map_cons, List.nodup_cons] at h
    rcases List.mem_cons.mp ho with rfl | hmem
    · simp [List.find?]
    · have hne : namespacedKey a ≠ namespacedKey o := fun heq =>
        h.1 (heq ▸ List.mem_map_of_mem _ hmem)
      simp only [List.find?, beq_iff_eq, hne]
      have hb : (namespacedKey a == namespacedKey o) = false := by simpa using hne
      rw [hb]
      exact ih h.2 hmem

/-- C13: for every input list, `SortToolchainObjectsByName` returns a list of
the same length, with an object in every slot, and the keys
"namespace,name" of these objects are in non-decreasing order: they are the
sorted keys of the input. -/
theorem sort_keys_sorted (objects : List comparableToolchainObjectImpl) :
    (SortToolchainObjectsByName objects).length = objects.length ∧
    ∃ out : List comparableToolchainObjectImpl,
      SortToolchainObjectsByName objects = out.map some ∧
      out.length = objects.length ∧
      (out.map namespacedKey).Sorted (· ≤ ·) ∧
      (out.map namespacedKey).Perm (objects.map namespacedKey) := by
  obtain ⟨out, h1, h2, _⟩ := sort_slots objects
  have hlen : (SortToolchainObjectsByName objects).length = objects.length := by
    simp [SortToolchainObjectsByName, sortStrings, List.length_insertionSort]
  refine ⟨hlen, out, h1, ?_, ?_, ?_⟩
  · rw [h1, List.length_map] at hlen
    exact hlen
  · rw [h2]
    exact List.sorted_insertionSort _ _
  · rw [h2]
    exact List.perm_insertionSort _ _

/-- C18: for an input whose keys "namespace,name" are pairwise distinct,
`SortToolchainObjectsByName` returns a permutation of the input, and it returns
the same list for every reordering of that input. -/
theorem sort_distinct_keys (objects : List comparableToolchainObjectImpl)
    (h : (objects.map namespacedKey).Nodup) :
    (∃ out : List comparableToolchainObjectImpl,
      SortToolchainObjectsByName objects = out.map some ∧ out.Perm objects) ∧
    ∀ objects' : List comparableToolchainObjectImpl, objects'.Perm objects →
      SortToolchainObjectsByName objects' = SortToolchainObjectsByName objects := by
  constructor
  · obtain ⟨out, h1, _, _⟩ := sort_slots objects
    refine ⟨out, h1, ?_⟩
    have hperm : (SortToolchainObjectsByName objects).Perm (objects.map some) := by
      have hp : (sortStrings (objects.map namespacedKey)).Perm (objects.map namespacedKey) :=
        List.perm_insertionSort _ _
      have hm := hp.map fun name => objects.find? fun object => namespacedKey object == name
      have he : (objects.map namespacedKey).map
          (fun name => objects.find? fun object => namespacedKey object == name)
          = objects.map some := by
        rw [List.map_map]
        exact List.map_congr_left fun o ho => find_self objects h o ho
      rw [he] at hm
      exact hm
    rw [h1] at hperm
    have hf := hperm.filterMap id
    simpa [List.filterMap_map] using hf
  · intro objects' hp
    have h' : (objects'.map namespacedKey).Nodup := (hp.map namespacedKey).nodup_iff.mpr h
    have hnames : sortStrings (objects'.map namespacedKey)
        = sortStrings (objects.map namespacedKey) :=
      sortStrings_unique _ _ ((List.perm_insertionSort _ _).trans (hp.map namespacedKey).symm)
        (List.sorted_insertionSort _ _)
    simp only [SortToolchainObjectsByName, hnames]
    apply List.map_congr_left
    intro name hname
    have hmem : name ∈ objects.map namespacedKey := (List.mem_insertionSort _).mp hname
    obtain ⟨o, ho, rfl⟩ := List.mem_map.mp hmem
    rw [find_self objects h o ho, find_self objects' h' o (hp.symm.subset ho)]

/-- Two objects with the same key: both slots of the result get the first. -/
theorem sort_pair_same_key (a b : comparableToolchainObjectImpl)
    (h : namespacedKey a = namespacedKey b) :
    SortToolchainObjectsByName [a, b] = [some a, some a] := by
  simp [SortToolchainObjectsByName, sortStrings, List.find?, h]

/-- C12: for the input of a Role and a RoleBinding that share the name "edit"
in the namespace "dev", `SortToolchainObjectsByName` returns the Role twice and
drops the RoleBinding: the result is not a permutation of the input. -/
theorem sort_not_permutation :
    SortToolchainObjectsByName [sample.editRole, sample.editRoleBinding]
      = [some sample.editRole, some sample.editRole] ∧
    ¬ ∃ out : List comparableToolchainObjectImpl,
      SortToolchainObjectsByName [sample.editRole, sample.editRoleBinding] = out.map some ∧
      out.Perm [sample.editRole, sample.editRoleBinding] := by
  have hs := sort_pair_same_key sample.editRole sample.editRoleBinding rfl
  refine ⟨hs, ?_⟩
  rintro ⟨out, h1, h2⟩
  rw [hs] at h1
  have hb : some sample.editRoleBinding ∈ out.map some :=
    List.mem_map_of_mem _ (h2.symm.subset (by simp))
  rw [← h1] at hb
  have hc : sample.editRoleBinding = sample.editRole := by simpa using hb
  have := congrArg (fun o => o.ToolchainObject.Object.content) hc
  simp [sample.editRoleBinding, sample.editRole] at this

/-- C18 at sample data: the Roles "view" and "edit" of the namespace "dev". -/
theorem sort_distinct_keys_witness :
    (∃ out : List comparableToolchainObjectImpl,
      SortToolchainObjectsByName [sample.viewRole, sample.editRole] = out.map some ∧
      out.Perm [sample.viewRole, sample.editRole]) ∧
    SortToolchainObjectsByName [sample.editRole, sample.viewRole]
      = SortToolchainObjectsByName [sample.viewRole, sample.editRole] :=
  ⟨(sort_distinct_keys [sample.viewRole, sample.editRole] (by decide)).1,
   (sort_distinct_keys [sample.viewRole, sample.editRole] (by decide)).2
      [sample.editRole, sample.viewRole] (List.Perm.swap _ _ _)⟩

end Toolchain
